import Mathlib

/-!
Verification development for the analytics dashboard's cache-sync and
metrics pipeline: `syncCompanyData` (src/lib/analytics/sync.ts), the
analytics calculator module (`calculateRevenue`, `getActiveMemberCount`,
`calculateARPU`, `getRevenueTimeSeries`, `getTopProducts`,
`getCustomerSegmentation`) and the store helpers (src/lib/supabase/client.ts),
shallowly embedded in Lean.

Modelling conventions:
* JavaScript numbers are modelled as exact rationals; `Math.round` is
  Mathlib's `round` (both round half up: `round q = ⌊q + 1/2⌋`).
* Timestamps are integers in epoch milliseconds; upstream records carry
  epoch seconds, converted by `* 1000` exactly as `new Date(x * 1000)`.
  ISO-8601 strings of a fixed format compare chronologically, so stored
  timestamps are kept as integers and compared numerically. Calendar-date
  keys produced by `format(d, 'yyyy-MM-dd')` are modelled as epoch day
  numbers (`fdiv` by the milliseconds of a day): lexicographic order of the
  date strings coincides with numeric order of the day numbers.
* JavaScript truthiness on optional strings and numbers (`""` and `0` are
  falsy, as are `null`/`undefined`) is modelled explicitly by the helpers
  `strTruthy`, `strOrElse`, `orNullStr` and `tsOpt`.
* The asynchronous environment of one sync run — the results the store and
  the upstream API would deliver, plus the current time — is an explicit
  `SyncEnv` record; a rejected promise is an `Except.error` carrying the
  error message, and `Promise.all` rejection is modelled as the first
  listed rejection.  `try`/`catch` in `syncCompanyData` becomes the
  propagation of those errors into a failed `SyncResult`.
* `Array.prototype.sort` (stable since ES2019) is modelled by Mathlib's
  stable `List.insertionSort`; a JavaScript object / `Map` used for
  grouping is an association list in key-insertion order (`jsGroupUpd`,
  `upsertNewest`), and `[...new Set(xs)]` is first-occurrence
  deduplication (`jsSetDedup`).
-/

namespace WhopAnalytics

/-! ## JavaScript value helpers -/

/-- Truthiness of an optional string: `null`/`undefined` and `""` are falsy. -/
def strTruthy : Option String → Bool
  | some s => !(s == "")
  | none => false

/-- `a || d` for an optional string `a` and a string default `d`. -/
def strOrElse (a : Option String) (d : String) : String :=
  match a with
  | some s => if s == "" then d else s
  | none => d

/-- `a || null` for an optional string: keeps only truthy strings. -/
def orNullStr : Option String → Option String
  | some s => if s == "" then none else some s
  | none => none

/-- `x ? new Date(x * 1000).toISOString() : null` for an optional
epoch-seconds value `x` (`0` is falsy): an optional epoch-milliseconds
timestamp. -/
def tsOpt : Option Int → Option Int
  | some n => if n == 0 then none else some (n * 1000)
  | none => none

/-- Milliseconds of one day, `1000 * 60 * 60 * 24`. -/
def msPerDay : Int := 1000 * 60 * 60 * 24

/-- The calendar date of an epoch-milliseconds timestamp, as an epoch day
number (stands for the `format(d, 'yyyy-MM-dd')` key). -/
def epochDay (t : Int) : Int := t.fdiv msPerDay

/-- `Math.round(q * 100) / 100`, the 2-decimal output rounding. -/
def round2 (q : ℚ) : ℚ := (round (q * 100) : ℚ) / 100

/-! ## Upstream (Whop API) record shapes

The source consumes `any`-typed payloads and reads a fixed set of fields
with optional chaining; the nested accesses (`p.accessPass?.id`,
`p.member?.user?.id`, `m.accessPasses?.[0]?.id`, `m.user?.id`) are
flattened into one optional field each. -/

structure UpstreamPayment where
  id : String
  status : Option String
  finalAmount : Option ℚ
  currency : Option String
  createdAt : Option Int
  paidAt : Option Int
  refundedAt : Option Int
  accessPassId : Option String
  membershipId : Option String
  memberUserId : Option String
deriving Repr, DecidableEq

structure UpstreamMember where
  id : Option String
  status : Option String
  valid : Option Bool
  createdAt : Option Int
  expiresAt : Option Int
  renewalPeriodStart : Option Int
  renewalPeriodEnd : Option Int
  cancelAtPeriodEnd : Option Bool
  accessPassFirstId : Option String
  userId : Option String
deriving Repr, DecidableEq

/-- A product record as `fetchAllProducts` extracts it from receipts
(the `visibility`/`stock`/`initialStock` metadata is copied opaquely into
the row's free-form metadata and read by no metric, so it is not
modelled). -/
structure UpstreamProduct where
  id : String
  title : Option String
  name : Option String
deriving Repr, DecidableEq

/-! ## Cache (Supabase) row shapes -/

structure PaymentRow where
  id : String
  company_id : String
  product_id : Option String
  membership_id : Option String
  user_id : Option String
  status : String
  final_amount : Int
  currency : String
  created_at : Option Int
  paid_at : Option Int
  refunded_at : Option Int
deriving Repr, DecidableEq

structure MembershipRow where
  id : String
  company_id : String
  product_id : Option String
  user_id : Option String
  status : String
  valid : Bool
  created_at : Option Int
  expires_at : Option Int
  renewal_period_start : Option Int
  renewal_period_end : Option Int
  cancel_at_period_end : Bool
deriving Repr, DecidableEq

structure ProductRow where
  id : String
  company_id : String
  name : String
  created_at : Int
deriving Repr, DecidableEq

/-! ## Normalization (step 4 of `syncCompanyData`) -/

/-- The payment transform of `syncCompanyData` (sync.ts lines 90-104). -/
def formatPayment (companyId : String) (p : UpstreamPayment) : PaymentRow :=
  { id := p.id
    company_id := companyId
    product_id := orNullStr p.accessPassId
    membership_id := orNullStr p.membershipId
    user_id := orNullStr p.memberUserId
    status := if p.status == some "succeeded" then "paid" else strOrElse p.status "unknown"
    final_amount := round (p.finalAmount.getD 0 * 100)
    currency := strOrElse p.currency "usd"
    created_at := tsOpt p.createdAt
    paid_at := tsOpt p.paidAt
    refunded_at := tsOpt p.refundedAt }

/-- The `.filter((m) => m?.id)` guard on fetched members. -/
def memberHasId (m : UpstreamMember) : Bool := strTruthy m.id

/-- The membership transform of `syncCompanyData` (sync.ts lines 107-125);
applied only to members passing `memberHasId`. -/
def formatMember (companyId : String) (m : UpstreamMember) : MembershipRow :=
  { id := m.id.getD ""
    company_id := companyId
    product_id := orNullStr m.accessPassFirstId
    user_id := orNullStr m.userId
    status := strOrElse m.status "unknown"
    valid := m.valid.getD false
    created_at := tsOpt m.createdAt
    expires_at := tsOpt m.expiresAt
    renewal_period_start := tsOpt m.renewalPeriodStart
    renewal_period_end := tsOpt m.renewalPeriodEnd
    cancel_at_period_end := m.cancelAtPeriodEnd.getD false }

/-- The product transform of `syncCompanyData` (sync.ts lines 127-137);
`created_at` is the sync's current time (`new Date()`). -/
def formatProduct (companyId : String) (now : Int) (p : UpstreamProduct) : ProductRow :=
  { id := p.id
    company_id := companyId
    name := strOrElse p.title (strOrElse p.name "Unnamed Product")
    created_at := now }

/-! ## Sync coordinator -/

structure SyncResult where
  success : Bool
  paymentsCount : Nat
  membershipsCount : Nat
  productsCount : Nat
  syncedAt : Int
  error : Option String
deriving Repr, DecidableEq

/-- The environment of one `syncCompanyData` call: the current time and the
outcome each store / API operation would have if it were reached. -/
structure SyncEnv where
  now : Int
  getLastSync : Except String (Option Int)
  upsertCompany : Except String Unit
  fetchAllPayments : Except String (List UpstreamPayment)
  fetchAllMemberships : Except String (List UpstreamMember)
  fetchAllProducts : Except String (List UpstreamProduct)
  bulkInsertPayments : Except String Unit
  bulkInsertMemberships : Except String Unit
  bulkInsertProducts : Except String Unit
  updateLastSync : Except String Unit
deriving Repr

/-- What one `syncCompanyData` call returns and does: the `SyncResult`,
whether the upstream fetch was reached, the rows each completed bulk upsert
wrote (`none` when that upsert never ran or failed), and whether the
last-sync timestamp was updated. -/
structure SyncOutput where
  result : SyncResult
  attemptedFetch : Bool
  paymentsWritten : Option (List PaymentRow)
  membershipsWritten : Option (List MembershipRow)
  productsWritten : Option (List ProductRow)
  lastSyncUpdated : Bool
deriving Repr, DecidableEq

/-- The failed `SyncResult` built in the `catch` block. -/
def syncFailure (now : Int) (msg : String) : SyncResult :=
  { success := false, paymentsCount := 0, membershipsCount := 0, productsCount := 0
    syncedAt := now, error := some msg }

/-- `bulkInsert*` returns before touching the store when given no rows, so
an insert of an empty list cannot fail. -/
def insertOutcome (res : Except String Unit) (rowCount : Nat) : Except String Unit :=
  if rowCount == 0 then .ok () else res

/-- The rows a parallel bulk upsert left in the store: its formatted rows
when it completed, nothing when it failed. -/
def writtenRows {α : Type} (res : Except String Unit) (rows : List α) : Option (List α) :=
  match res with
  | .ok _ => some rows
  | .error _ => none

/-- Steps 2-7 of `syncCompanyData` (sync.ts lines 69-159): company upsert,
parallel fetch, normalization, parallel bulk upsert, timestamp update,
success result.  Any error falls through to the `catch` block
(`syncFailure`); a failed parallel upsert does not roll back its completed
siblings, and of several parallel failures the first listed one is
reported. -/
def syncFull (env : SyncEnv) (companyId : String) : SyncOutput :=
  match env.upsertCompany with
  | .error e => ⟨syncFailure env.now e, false, none, none, none, false⟩
  | .ok _ =>
  match env.fetchAllPayments with
  | .error e => ⟨syncFailure env.now e, true, none, none, none, false⟩
  | .ok payments =>
  match env.fetchAllMemberships with
  | .error e => ⟨syncFailure env.now e, true, none, none, none, false⟩
  | .ok memberships =>
  match env.fetchAllProducts with
  | .error e => ⟨syncFailure env.now e, true, none, none, none, false⟩
  | .ok products =>
  match insertOutcome env.bulkInsertPayments (payments.map (formatPayment companyId)).length,
      insertOutcome env.bulkInsertMemberships
        ((memberships.filter memberHasId).map (formatMember companyId)).length,
      insertOutcome env.bulkInsertProducts
        (products.map (formatProduct companyId env.now)).length with
  | .error e, im, ipr =>
      ⟨syncFailure env.now e, true, none,
        writtenRows im ((memberships.filter memberHasId).map (formatMember companyId)),
        writtenRows ipr (products.map (formatProduct companyId env.now)), false⟩
  | .ok _, .error e, ipr =>
      ⟨syncFailure env.now e, true, some (payments.map (formatPayment companyId)), none,
        writtenRows ipr (products.map (formatProduct companyId env.now)), false⟩
  | .ok _, .ok _, .error e =>
      ⟨syncFailure env.now e, true, some (payments.map (formatPayment companyId)),
        some ((memberships.filter memberHasId).map (formatMember companyId)), none, false⟩
  | .ok _, .ok _, .ok _ =>
  match env.updateLastSync with
  | .error e =>
      ⟨syncFailure env.now e, true, some (payments.map (formatPayment companyId)),
        some ((memberships.filter memberHasId).map (formatMember companyId)),
        some (products.map (formatProduct companyId env.now)), false⟩
  | .ok _ =>
      ⟨{ success := true, paymentsCount := payments.length
         membershipsCount := memberships.length, productsCount := products.length
         syncedAt := env.now, error := none }, true,
        some (payments.map (formatPayment companyId)),
        some ((memberships.filter memberHasId).map (formatMember companyId)),
        some (products.map (formatProduct companyId env.now)), true⟩

/-- `syncCompanyData` (sync.ts lines 41-171).  Step 1: read the last-sync
timestamp; if `force` is false, a timestamp exists and it is younger than
one hour, return the fresh-skip result with the stored timestamp as
`syncedAt`; otherwise run the full cycle.  A thrown last-sync lookup is
caught like every other failure. -/
def syncCompanyData (env : SyncEnv) (companyId : String) (force : Bool) : SyncOutput :=
  match env.getLastSync with
  | .error e => ⟨syncFailure env.now e, false, none, none, none, false⟩
  | .ok lastSync =>
    let oneHourAgo := env.now - 60 * 60 * 1000
    match lastSync with
    | some t =>
      if !force && decide (oneHourAgo < t) then
        ⟨{ success := true, paymentsCount := 0, membershipsCount := 0, productsCount := 0
           syncedAt := t, error := none }, false, none, none, none, false⟩
      else syncFull env companyId
    | none => syncFull env companyId

/-- The error payloads an environment can deliver. -/
def exceptErrors {α : Type} : Except String α → List String
  | .error e => [e]
  | .ok _ => []

/-- Every error message any operation of the environment could raise. -/
def envMessages (env : SyncEnv) : List String :=
  exceptErrors env.getLastSync ++ exceptErrors env.upsertCompany ++
  exceptErrors env.fetchAllPayments ++ exceptErrors env.fetchAllMemberships ++
  exceptErrors env.fetchAllProducts ++ exceptErrors env.bulkInsertPayments ++
  exceptErrors env.bulkInsertMemberships ++ exceptErrors env.bulkInsertProducts ++
  exceptErrors env.updateLastSync

/-! ## Metrics engine -/

structure MetricResult where
  value : ℚ
  change : ℚ
deriving Repr, DecidableEq

/-- The current-period payment filter of `calculateRevenue`: company match,
status `paid`, `paid_at` within the closed window (a SQL comparison with a
`NULL` `paid_at` is false). -/
def isPaidInWindow (companyId : String) (startMs endMs : Int) (p : PaymentRow) : Bool :=
  p.company_id == companyId && p.status == "paid" &&
    (match p.paid_at with
     | some t => decide (startMs ≤ t) && decide (t ≤ endMs)
     | none => false)

/-- The sum of stored minor-unit amounts of the paid payments in a window
(specification-side restatement of the `reduce` in `calculateRevenue`). -/
def paidAmountSum (db : List PaymentRow) (companyId : String) (startMs endMs : Int) : Int :=
  ((db.filter (isPaidInWindow companyId startMs endMs)).map (·.final_amount)).sum

/-- `Math.ceil((end - start) / (1000 * 60 * 60 * 24))`. -/
def daysDiffCeil (startMs endMs : Int) : Int :=
  ⌈((endMs - startMs : Int) : ℚ) / (msPerDay : ℚ)⌉

/-- `calculateRevenue` (calculator lines 40-84). -/
def calculateRevenue (db : List PaymentRow) (companyId : String) (startMs endMs : Int) :
    MetricResult :=
  let currentPayments := db.filter (isPaidInWindow companyId startMs endMs)
  let currentRevenue := currentPayments.foldl (fun sum p => sum + p.final_amount) (0 : Int)
  let daysDiff := daysDiffCeil startMs endMs
  let prevStartMs := startMs - daysDiff * msPerDay
  let prevEndMs := endMs - daysDiff * msPerDay
  let previousPayments := db.filter (isPaidInWindow companyId prevStartMs prevEndMs)
  let previousRevenue := previousPayments.foldl (fun sum p => sum + p.final_amount) (0 : Int)
  let change : ℚ :=
    if 0 < previousRevenue then
      ((currentRevenue : ℚ) - (previousRevenue : ℚ)) / (previousRevenue : ℚ) * 100
    else 0
  { value := (currentRevenue : ℚ) / 100, change := change }

/-- The active-membership filter of `getActiveMemberCount`: company match,
`valid = true`, status in `{active, trialing}`. -/
def isActiveMembership (companyId : String) (m : MembershipRow) : Bool :=
  m.company_id == companyId && m.valid && (m.status == "active" || m.status == "trialing")

/-- The `currentCount` query of `getActiveMemberCount`. -/
def activeMemberCountNow (mdb : List MembershipRow) (companyId : String) : Nat :=
  (mdb.filter (isActiveMembership companyId)).length

/-- The `previousCount` baseline query of `getActiveMemberCount`: active
memberships created strictly before 30 days ago (a `NULL` creation date is
excluded by the SQL comparison). -/
def activeMemberBaseline (mdb : List MembershipRow) (companyId : String) (now : Int) : Nat :=
  (mdb.filter (fun m => isActiveMembership companyId m &&
      (match m.created_at with
       | some c => decide (c < now - 30 * msPerDay)
       | none => false))).length

/-- `getActiveMemberCount` (calculator lines 91-122). -/
def getActiveMemberCount (mdb : List MembershipRow) (companyId : String) (now : Int) :
    MetricResult :=
  let currentCount := activeMemberCountNow mdb companyId
  let previousCount := activeMemberBaseline mdb companyId now
  let change : ℚ :=
    if 0 < previousCount then
      ((currentCount : ℚ) - (previousCount : ℚ)) / (previousCount : ℚ) * 100
    else 0
  { value := (currentCount : ℚ), change := change }

/-- `calculateARPU` (calculator lines 301-325).  Note both the current and
the previous-period ARPU call `getActiveMemberCount` with no date argument,
so both divide by the present member count. -/
def calculateARPU (db : List PaymentRow) (mdb : List MembershipRow) (companyId : String)
    (startMs endMs now : Int) : MetricResult :=
  let revenue := calculateRevenue db companyId startMs endMs
  let members := getActiveMemberCount mdb companyId now
  let arpu : ℚ := if 0 < members.value then revenue.value / members.value else 0
  let daysDiff := daysDiffCeil startMs endMs
  let prevStartMs := startMs - daysDiff * msPerDay
  let prevEndMs := endMs - daysDiff * msPerDay
  let prevRevenue := calculateRevenue db companyId prevStartMs prevEndMs
  let prevMembers := getActiveMemberCount mdb companyId now
  let prevARPU : ℚ := if 0 < prevMembers.value then prevRevenue.value / prevMembers.value else 0
  let change : ℚ := if 0 < prevARPU then (arpu - prevARPU) / prevARPU * 100 else 0
  { value := arpu, change := change }

/-! ## JavaScript container helpers: grouping, set-dedup -/

/-- One step of `acc[k] = f(acc[k] ?? dflt)` on a plain object modelled as
an association list: an existing key keeps its position, a new key is
appended (JavaScript object insertion order). -/
def jsGroupUpd {κ β : Type} [DecidableEq κ] (k : κ) (f : β → β) (dflt : β) :
    List (κ × β) → List (κ × β)
  | [] => [(k, f dflt)]
  | (k', v') :: rest =>
    if k = k' then (k', f v') :: rest else (k', v') :: jsGroupUpd k f dflt rest

/-- A `reduce` that groups a list into an association list; `okey` yields
`none` for elements the reducer skips, and `dflt s` is the value a fresh
key starts from before `f s` is applied. -/
def jsGroupByAux {σ κ β : Type} [DecidableEq κ] (okey : σ → Option κ) (f : σ → β → β)
    (dflt : σ → β) : List σ → List (κ × β) → List (κ × β)
  | [], acc => acc
  | s :: t, acc =>
    jsGroupByAux okey f dflt t
      (match okey s with
       | some k => jsGroupUpd k (f s) (dflt s) acc
       | none => acc)

def jsGroupBy {σ κ β : Type} [DecidableEq κ] (okey : σ → Option κ) (f : σ → β → β)
    (dflt : σ → β) (l : List σ) : List (κ × β) :=
  jsGroupByAux okey f dflt l []

/-- Inserting into a `Set` skips elements already seen. -/
def jsSetDedupAux (seen : List String) : List String → List String
  | [] => []
  | a :: l => if a ∈ seen then jsSetDedupAux seen l else a :: jsSetDedupAux (a :: seen) l

/-- `[...new Set(xs)]`: deduplication keeping the first occurrence of each
element, in encounter order. -/
def jsSetDedup (l : List String) : List String := jsSetDedupAux [] l

/-! ## Remaining metrics -/

structure TimeSeriesPoint where
  date : Int
  value : ℚ
deriving Repr, DecidableEq

/-- The comparator of the final `.sort((a, b) => a.date.localeCompare(b.date))`:
ascending calendar date. -/
abbrev tsPointLE (a b : TimeSeriesPoint) : Prop := a.date ≤ b.date

instance : IsTotal TimeSeriesPoint tsPointLE := ⟨fun a b => Int.le_total a.date b.date⟩

instance : IsTrans TimeSeriesPoint tsPointLE := ⟨fun _ _ _ h h' => le_trans h h'⟩

/-- The `.order('paid_at', ascending)` comparator. -/
abbrev paidAtLE (a b : PaymentRow) : Prop := a.paid_at.getD 0 ≤ b.paid_at.getD 0

/-- The `getRevenueTimeSeries` query filter: paid payments of the company
with non-null `paid_at` at or after `now - days` days (the query imposes no
upper bound on `paid_at`). -/
def rtsFiltered (db : List PaymentRow) (companyId : String) (days now : Int) :
    List PaymentRow :=
  db.filter (fun p => p.company_id == companyId && p.status == "paid" &&
      (match p.paid_at with | some t => decide (now - days * msPerDay ≤ t) | none => false))

/-- The query result, ordered by `paid_at` ascending. -/
def rtsData (db : List PaymentRow) (companyId : String) (days now : Int) : List PaymentRow :=
  (rtsFiltered db companyId days now).insertionSort paidAtLE

/-- The `grouped` object: per calendar date, the major-unit sum (the
reducer re-checks `paid_at` and skips null). -/
def rtsGrouped (db : List PaymentRow) (companyId : String) (days now : Int) :
    List (Int × ℚ) :=
  jsGroupBy (fun p => p.paid_at.map epochDay)
    (fun p v => v + (p.final_amount : ℚ) / 100) (fun _ => 0)
    (rtsData db companyId days now)

/-- The calendar dates carrying at least one fetched paid payment. -/
def paidDaysInWindow (db : List PaymentRow) (companyId : String) (days now : Int) :
    List Int :=
  (rtsFiltered db companyId days now).filterMap (fun p => p.paid_at.map epochDay)

/-- `getRevenueTimeSeries` (calculator lines 161-195): paid payments of the
company with non-null `paid_at` in the trailing window, ordered by
`paid_at`, grouped by calendar date summing major-unit amounts, rounded to
2 decimals, sorted ascending by date; empty result when the query returns
no row. -/
def getRevenueTimeSeries (db : List PaymentRow) (companyId : String) (days : Int) (now : Int) :
    List TimeSeriesPoint :=
  if (rtsData db companyId days now).isEmpty then []
  else
    ((rtsGrouped db companyId days now).map
      (fun e => TimeSeriesPoint.mk e.1 (round2 e.2))).insertionSort tsPointLE

structure ProductMetric where
  productId : String
  productName : String
  revenue : ℚ
  count : Nat
deriving Repr, DecidableEq

/-- The comparator of `.sort((a, b) => b.revenue - a.revenue)`: descending
revenue. -/
abbrev productRevGE (a b : ProductMetric) : Prop := b.revenue ≤ a.revenue

instance : IsTotal ProductMetric productRevGE := ⟨fun a b => le_total b.revenue a.revenue⟩

instance : IsTrans ProductMetric productRevGE := ⟨fun _ _ _ h h' => le_trans h' h⟩

/-- `new Map(products.map((p) => [p.id, p.name]))` followed by `.get(pid)`:
with duplicate ids the later entry wins. -/
def lookupLast (pdb : List ProductRow) (pid : String) : Option String :=
  ((pdb.filter (fun pr => pr.id == pid)).map (·.name)).getLast?

/-- The `getTopProducts` query filter: paid payments of the company with a
non-null product reference. -/
def topPayments (db : List PaymentRow) (companyId : String) : List PaymentRow :=
  db.filter (fun p => p.company_id == companyId && p.status == "paid" && p.product_id.isSome)

/-- The `grouped` object of `getTopProducts`: per product id (the reducer
additionally skips a falsy id), summed major-unit revenue and count. -/
def topGrouped (db : List PaymentRow) (companyId : String) : List (String × (ℚ × Nat)) :=
  jsGroupBy (fun p => orNullStr p.product_id)
    (fun p (v : ℚ × Nat) => (v.1 + (p.final_amount : ℚ) / 100, v.2 + 1)) (fun _ => (0, 0))
    (topPayments db companyId)

/-- `productMap.get(productId) || 'Unknown Product'`. -/
def productDisplayName (pdb : List ProductRow) (pid : String) : String :=
  match lookupLast pdb pid with
  | some n => if n == "" then "Unknown Product" else n
  | none => "Unknown Product"

/-- The combined (pre-sort) product metrics of `getTopProducts`. -/
def topEntries (db : List PaymentRow) (pdb : List ProductRow) (companyId : String) :
    List ProductMetric :=
  (topGrouped db companyId).map
    (fun e => ProductMetric.mk e.1 (productDisplayName pdb e.1) (round2 e.2.1) e.2.2)

/-- `getTopProducts` (calculator lines 203-251): paid payments of the
company with non-null product reference, grouped by product, summed
major-unit revenue and count, joined against product names with an
`Unknown Product` fallback, sorted descending by revenue, truncated to
`limit`. -/
def getTopProducts (db : List PaymentRow) (pdb : List ProductRow) (companyId : String)
    (limit : Nat) : List ProductMetric :=
  if (topPayments db companyId).isEmpty then []
  else ((topEntries db pdb companyId).insertionSort productRevGE).take limit

/-! ## Customer segmentation -/

inductive Segment where
  | new
  | active
  | atRisk
  | churned
deriving Repr, DecidableEq

structure CustomerSegment where
  segment : Segment
  count : Nat
  percentage : ℚ
  color : String
deriving Repr, DecidableEq

/-- The fixed four-row zero answer returned when there are no paid payments
or no memberships of paying customers. -/
def zeroSegments : List CustomerSegment :=
  [⟨.new, 0, 0, "#10b981"⟩, ⟨.active, 0, 0, "#3b82f6"⟩,
   ⟨.atRisk, 0, 0, "#f59e0b"⟩, ⟨.churned, 0, 0, "#ef4444"⟩]

/-- The replacement test when two memberships share a user: keep the later
`created_at` (both must be non-null for a replacement). -/
def shouldReplaceMembership (existing m : MembershipRow) : Bool :=
  match m.created_at, existing.created_at with
  | some a, some b => decide (b < a)
  | _, _ => false

/-- The `customersByUserId` map build (a `Map.set` fold keyed by truthy
user id, an existing key keeping its position): most recent membership per
user. -/
def collectByUser (ms : List MembershipRow) : List (String × MembershipRow) :=
  jsGroupBy (fun m => orNullStr m.user_id)
    (fun m ex => if shouldReplaceMembership ex m then m else ex) (fun m => m) ms

/-- The paid payments of the company (`getCustomerSegmentation`'s first
query). -/
def segPayments (db : List PaymentRow) (companyId : String) : List PaymentRow :=
  db.filter (fun p => p.company_id == companyId && p.status == "paid")

/-- The `payments.map((p) => p.user_id).filter(Boolean)` then
`[...new Set(...)]` pipeline: distinct truthy user ids of the company's
paid payments. -/
def uniquePayingCustomerIds (db : List PaymentRow) (companyId : String) : List String :=
  jsSetDedup ((segPayments db companyId).filterMap (fun p => orNullStr p.user_id))

/-- The `total` denominator of `getCustomerSegmentation`. -/
def uniquePayingCustomerCount (db : List PaymentRow) (companyId : String) : Nat :=
  (uniquePayingCustomerIds db companyId).length

/-- The memberships of the company whose user id is among the paying
customer ids (`.in('user_id', uniqueCustomerIds)`; SQL `IN` is false for a
`NULL` user id). -/
def segCustomerMemberships (mdb : List MembershipRow) (companyId : String)
    (ids : List String) : List MembershipRow :=
  mdb.filter (fun m => m.company_id == companyId &&
    (match m.user_id with | some u => ids.contains u | none => false))

/-- The deduplicated customers: one most-recent membership per user. -/
def segUniqueCustomers (cms : List MembershipRow) : List MembershipRow :=
  (collectByUser cms).map (·.2)

/-- The `new` segment filter: created within the last 30 days and valid. -/
def isNewCustomer (thirtyDaysAgo : Int) (m : MembershipRow) : Bool :=
  (match m.created_at with | some c => decide (thirtyDaysAgo < c) | none => false) && m.valid

/-- The `active` segment filter: valid, status `active`, created more than
30 days ago. -/
def isActiveCustomer (thirtyDaysAgo : Int) (m : MembershipRow) : Bool :=
  m.valid && m.status == "active" &&
    (match m.created_at with | some c => decide (c ≤ thirtyDaysAgo) | none => false)

/-- The `at_risk` segment filter: valid, not yet expired, expiring within
the next 7 days (`subDays(now, -7)`). -/
def isAtRiskCustomer (now : Int) (m : MembershipRow) : Bool :=
  m.valid &&
    (match m.expires_at with
     | some x => decide (now < x) && decide (x < now + 7 * msPerDay)
     | none => false)

/-- The `churned` segment filter: invalid, or status cancelled/expired. -/
def isChurnedCustomer (m : MembershipRow) : Bool :=
  !m.valid || m.status == "cancelled" || m.status == "expired"

/-- `getCustomerSegmentation` (calculator lines 375-487). -/
def getCustomerSegmentation (db : List PaymentRow) (mdb : List MembershipRow)
    (companyId : String) (now : Int) : List CustomerSegment :=
  if (segPayments db companyId).isEmpty then zeroSegments
  else
    if (segCustomerMemberships mdb companyId (uniquePayingCustomerIds db companyId)).isEmpty
    then zeroSegments
    else
      let total := uniquePayingCustomerCount db companyId
      let uniqueCustomers :=
        segUniqueCustomers
          (segCustomerMemberships mdb companyId (uniquePayingCustomerIds db companyId))
      let newCustomers := (uniqueCustomers.filter (isNewCustomer (now - 30 * msPerDay))).length
      let activeCustomers :=
        (uniqueCustomers.filter (isActiveCustomer (now - 30 * msPerDay))).length
      let atRiskCustomers := (uniqueCustomers.filter (isAtRiskCustomer now)).length
      let churnedCustomers := (uniqueCustomers.filter isChurnedCustomer).length
      [⟨.new, newCustomers,
        if 0 < total then (newCustomers : ℚ) / (total : ℚ) * 100 else 0, "#10b981"⟩,
       ⟨.active, activeCustomers,
        if 0 < total then (activeCustomers : ℚ) / (total : ℚ) * 100 else 0, "#3b82f6"⟩,
       ⟨.atRisk, atRiskCustomers,
        if 0 < total then (atRiskCustomers : ℚ) / (total : ℚ) * 100 else 0, "#f59e0b"⟩,
       ⟨.churned, churnedCustomers,
        if 0 < total then (churnedCustomers : ℚ) / (total : ℚ) * 100 else 0, "#ef4444"⟩]

/-! ## Shared lemmas about `calculateRevenue` -/

/-- The start of the equal-length preceding comparison window. -/
def prevWindowStart (s e : Int) : Int := s - daysDiffCeil s e * msPerDay

/-- The end of the equal-length preceding comparison window. -/
def prevWindowEnd (s e : Int) : Int := e - daysDiffCeil s e * msPerDay

/-- The enumerated status set of the specification's data model. -/
def allowedPaymentStatuses : List String := ["paid", "refunded", "failed", "pending", "unknown"]

/-! ## Sample data for witnesses and counterexamples -/

/-- Sample upstream payment: `finalAmount = 19.99`, status `succeeded`,
paid at epoch second 200. -/
def c2Payment : UpstreamPayment :=
  { id := "pay_1", status := some "succeeded", finalAmount := some (1999 / 100)
    currency := some "usd", createdAt := some 100, paidAt := some 200, refundedAt := none
    accessPassId := some "prod_1", membershipId := none, memberUserId := some "user_1" }

/-- Sample cached payment: paid inside the window `[0, day]`, with nothing
in the preceding window. -/
def c3Payment : PaymentRow :=
  { id := "pay_2", company_id := "biz_1", product_id := none, membership_id := none
    user_id := none, status := "paid", final_amount := 500, currency := "usd"
    created_at := some 0, paid_at := some 1000, refunded_at := none }

/-- An upstream payment whose status is outside the enumerated set. -/
def c6Payment : UpstreamPayment :=
  { id := "pay_3", status := some "disputed", finalAmount := some 10, currency := some "usd"
    createdAt := some 100, paidAt := none, refundedAt := none
    accessPassId := none, membershipId := none, memberUserId := none }

/-- An environment whose company was synced 200 seconds ago (fresh) and
whose upstream and store calls all succeed with empty collections. -/
def c1FreshEnv : SyncEnv :=
  { now := 7200000, getLastSync := .ok (some 7000000), upsertCompany := .ok ()
    fetchAllPayments := .ok [], fetchAllMemberships := .ok [], fetchAllProducts := .ok []
    bulkInsertPayments := .ok (), bulkInsertMemberships := .ok ()
    bulkInsertProducts := .ok (), updateLastSync := .ok () }

/-- An upstream member record with an id. -/
def c10GoodMember : UpstreamMember :=
  { id := some "mem_1", status := some "active", valid := some true, createdAt := some 100
    expiresAt := none, renewalPeriodStart := none, renewalPeriodEnd := none
    cancelAtPeriodEnd := some false, accessPassFirstId := none, userId := some "user_1" }

/-- An upstream member record lacking an id. -/
def c10BadMember : UpstreamMember := { c10GoodMember with id := none, userId := some "user_2" }

/-- A never-synced environment whose member listing contains one id-less
record. -/
def c10Env : SyncEnv :=
  { c1FreshEnv with
    now := 5000
    getLastSync := Except.ok none
    fetchAllMemberships := Except.ok [c10GoodMember, c10BadMember] }

/-- A membership row with its creation date wiped: two cache states that
agree after this map differ only in historical membership creation dates. -/
def eraseCreatedAt (m : MembershipRow) : MembershipRow := { m with created_at := none }

/-- `calculateARPU` with the member-count denominator made explicit: one
count `c` divides both the current-period and the previous-period revenue. -/
def arpuModel (db : List PaymentRow) (c : Nat) (cid : String) (s e : Int) : MetricResult :=
  let arpu : ℚ := if 0 < (c : ℚ) then (calculateRevenue db cid s e).value / (c : ℚ) else 0
  let prevARPU : ℚ :=
    if 0 < (c : ℚ) then
      (calculateRevenue db cid (prevWindowStart s e) (prevWindowEnd s e)).value / (c : ℚ)
    else 0
  { value := arpu, change := if 0 < prevARPU then (arpu - prevARPU) / prevARPU * 100 else 0 }

/-- A valid active membership created at epoch millisecond 1000. -/
def c5Membership : MembershipRow :=
  { id := "mem_2", company_id := "biz_1", product_id := none, user_id := some "user_1"
    status := "active", valid := true, created_at := some 1000, expires_at := none
    renewal_period_start := none, renewal_period_end := none, cancel_at_period_end := false }

/-- The same membership with a much later creation date. -/
def c5MembershipLater : MembershipRow := { c5Membership with created_at := some 999999999 }

/-- A paid payment by `user_1`. -/
def c4Payment : PaymentRow :=
  { id := "pay_4", company_id := "biz_1", product_id := none, membership_id := none
    user_id := some "user_1", status := "paid", final_amount := 1000, currency := "usd"
    created_at := some 0, paid_at := some 0, refunded_at := none }

/-- At evaluation time day 100, a membership that is simultaneously
`active` (valid, status `active`, created on day 60 — more than 30 days
ago) and `at_risk` (expiring on day 103, within the next 7 days). -/
def c4Membership : MembershipRow :=
  { id := "mem_3", company_id := "biz_1", product_id := none, user_id := some "user_1"
    status := "active", valid := true, created_at := some (60 * 86400000)
    expires_at := some (103 * 86400000), renewal_period_start := none
    renewal_period_end := none, cancel_at_period_end := false }

theorem foldl_add_final_amount (l : List PaymentRow) (a : Int) :
    l.foldl (fun sum p => sum + p.final_amount) a = a + (l.map (·.final_amount)).sum := by
  induction l generalizing a with
  | nil => simp
  | cons h t ih => simp [List.foldl_cons, ih, add_assoc]

theorem calculateRevenue_value (db : List PaymentRow) (cid : String) (s e : Int) :
    (calculateRevenue db cid s e).value = (paidAmountSum db cid s e : ℚ) / 100 := by
  simp [calculateRevenue, paidAmountSum, foldl_add_final_amount]

theorem calculateRevenue_change (db : List PaymentRow) (cid : String) (s e : Int) :
    (calculateRevenue db cid s e).change =
      if 0 < paidAmountSum db cid (prevWindowStart s e) (prevWindowEnd s e) then
        ((paidAmountSum db cid s e : ℚ) -
            (paidAmountSum db cid (prevWindowStart s e) (prevWindowEnd s e) : ℚ)) /
          (paidAmountSum db cid (prevWindowStart s e) (prevWindowEnd s e) : ℚ) * 100
      else 0 := by
  simp [calculateRevenue, paidAmountSum, prevWindowStart, prevWindowEnd,
    foldl_add_final_amount]

/-! ## C2: monetary round-trip -/

/-- C2: for every upstream payment record, normalization stores the amount
as `round(finalAmount * 100)` integer minor units, and `calculateRevenue`
reports the sum of stored minor-unit amounts divided by 100; in particular
a payment with `finalAmount = 19.99` is stored as `1999`, and a revenue
query covering only that payment reports value `19.99`. -/
theorem payment_amount_roundtrip (cid : String) (p : UpstreamPayment) (s e u : Int)
    (hA : p.finalAmount = some (1999 / 100 : ℚ))
    (hS : p.status = some "succeeded")
    (hT : p.paidAt = some u) (hu : u ≠ 0)
    (h1 : s ≤ u * 1000) (h2 : u * 1000 ≤ e) :
    (∀ (c : String) (q : UpstreamPayment),
        (formatPayment c q).final_amount = round (q.finalAmount.getD 0 * 100))
    ∧ (∀ (db : List PaymentRow) (c : String) (s' e' : Int),
        (calculateRevenue db c s' e').value = (paidAmountSum db c s' e' : ℚ) / 100)
    ∧ (formatPayment cid p).final_amount = 1999
    ∧ (calculateRevenue [formatPayment cid p] cid s e).value = 1999 / 100 := by
  have hfa : (formatPayment cid p).final_amount = 1999 := by
    simp only [formatPayment, hA, Option.getD_some]
    rw [show ((1999 : ℚ) / 100 * 100) = ((1999 : ℤ) : ℚ) by norm_num, round_intCast]
  have hfilter : isPaidInWindow cid s e (formatPayment cid p) = true := by
    simp [isPaidInWindow, formatPayment, hS, hT, tsOpt, hu, h1, h2]
  refine ⟨fun c q => rfl, fun db c s' e' => calculateRevenue_value db c s' e', hfa, ?_⟩
  rw [calculateRevenue_value]
  simp [paidAmountSum, hfilter, hfa]

theorem payment_amount_roundtrip_witness :
    (formatPayment "biz_1" c2Payment).final_amount = 1999 ∧
    (calculateRevenue [formatPayment "biz_1" c2Payment] "biz_1" 0 400000).value =
      1999 / 100 := by
  have h := payment_amount_roundtrip "biz_1" c2Payment 0 400000 200 rfl rfl rfl
    (by decide) (by decide) (by decide)
  exact ⟨h.2.2.1, h.2.2.2⟩

/-! ## C3: percentage-change semantics -/

/-- C3: a metric's change equals `(current - previous) / previous * 100`
when the previous-period value is strictly positive, and `0` when the
previous-period value is `0` (in particular when the current value is
positive and the previous is `0`); shown for `calculateRevenue` and
`getActiveMemberCount`. -/
theorem metric_change_semantics (db : List PaymentRow) (mdb : List MembershipRow)
    (cid : String) (s e now : Int) :
    (0 < paidAmountSum db cid (prevWindowStart s e) (prevWindowEnd s e) →
      (calculateRevenue db cid s e).change =
        ((paidAmountSum db cid s e : ℚ) -
            (paidAmountSum db cid (prevWindowStart s e) (prevWindowEnd s e) : ℚ)) /
          (paidAmountSum db cid (prevWindowStart s e) (prevWindowEnd s e) : ℚ) * 100)
    ∧ (paidAmountSum db cid (prevWindowStart s e) (prevWindowEnd s e) = 0 →
      (calculateRevenue db cid s e).change = 0)
    ∧ (0 < activeMemberBaseline mdb cid now →
      (getActiveMemberCount mdb cid now).change =
        ((activeMemberCountNow mdb cid : ℚ) - (activeMemberBaseline mdb cid now : ℚ)) /
          (activeMemberBaseline mdb cid now : ℚ) * 100)
    ∧ (activeMemberBaseline mdb cid now = 0 →
      (getActiveMemberCount mdb cid now).change = 0) := by
  refine ⟨?_, ?_, ?_, ?_⟩
  · intro h; rw [calculateRevenue_change, if_pos h]
  · intro h; rw [calculateRevenue_change, h]; simp
  · intro h; simp [getActiveMemberCount, h]
  · intro h; simp [getActiveMemberCount, h]

theorem metric_change_semantics_witness :
    (calculateRevenue [c3Payment] "biz_1" 0 86400000).change = 0 ∧
    (calculateRevenue [c3Payment] "biz_1" 0 86400000).value = 5 := by
  have h := metric_change_semantics [c3Payment] [] "biz_1" 0 86400000 0
  have hdd : daysDiffCeil 0 86400000 = 1 := by
    show ⌈((86400000 - 0 : Int) : ℚ) / (msPerDay : ℚ)⌉ = 1
    norm_num [msPerDay]
  have hprev :
      paidAmountSum [c3Payment] "biz_1" (prevWindowStart 0 86400000)
        (prevWindowEnd 0 86400000) = 0 := by
    simp [paidAmountSum, isPaidInWindow, c3Payment, prevWindowStart, prevWindowEnd, hdd,
      msPerDay]
  refine ⟨h.2.1 hprev, ?_⟩
  rw [calculateRevenue_value]
  have hcur : paidAmountSum [c3Payment] "biz_1" 0 86400000 = 500 := by
    simp [paidAmountSum, isPaidInWindow, c3Payment]
  rw [hcur]
  norm_num

/-! ## C6: stored payment status -/

/-- C6 counterexample: an upstream payment with status `disputed` is stored
with status `disputed`, which is not in
`{paid, refunded, failed, pending, unknown}`. -/
theorem payment_status_cex :
    ¬ (formatPayment "biz_1" c6Payment).status ∈ allowedPaymentStatuses := by decide

/-- C6 amended: normalization maps upstream `succeeded` to `paid` and a
missing (or empty) status to `unknown`, and passes every other upstream
status through verbatim; hence the stored status lies in
`{paid, refunded, failed, pending, unknown}` whenever the upstream status
is absent, empty, or one of `succeeded`/`paid`/`refunded`/`failed`/
`pending`/`unknown`. -/
theorem payment_status_amended (cid : String) (p : UpstreamPayment) :
    (p.status = some "succeeded" → (formatPayment cid p).status = "paid")
    ∧ ((p.status = none ∨ p.status = some "") → (formatPayment cid p).status = "unknown")
    ∧ (∀ s : String, p.status = some s → s ≠ "succeeded" → s ≠ "" →
        (formatPayment cid p).status = s)
    ∧ (p.status ∈ ([none, some "", some "succeeded", some "paid", some "refunded",
          some "failed", some "pending", some "unknown"] : List (Option String)) →
        (formatPayment cid p).status ∈ allowedPaymentStatuses) := by
  refine ⟨?_, ?_, ?_, ?_⟩
  · intro h; simp [formatPayment, h]
  · rintro (h | h) <;> simp [formatPayment, h, strOrElse]
  · intro s h hs he
    simp [formatPayment, h, strOrElse, hs, he]
  · intro h
    simp only [List.mem_cons, List.not_mem_nil, or_false] at h
    rcases h with h | h | h | h | h | h | h | h <;>
      simp [formatPayment, h, strOrElse, allowedPaymentStatuses]

/-! ## Shared lemmas about the sync coordinator -/

theorem insertOutcome_ok (n : Nat) : insertOutcome (Except.ok ()) n = Except.ok () := by
  unfold insertOutcome; split <;> rfl

theorem insertOutcome_error {res : Except String Unit} {n : Nat} {e : String}
    (h : insertOutcome res n = Except.error e) : res = Except.error e := by
  unfold insertOutcome at h
  split at h
  · exact Except.noConfusion h
  · exact h

theorem syncFull_ok (env : SyncEnv) (cid : String) (ps : List UpstreamPayment)
    (ms : List UpstreamMember) (prs : List UpstreamProduct)
    (h2 : env.upsertCompany = .ok ()) (h3 : env.fetchAllPayments = .ok ps)
    (h4 : env.fetchAllMemberships = .ok ms) (h5 : env.fetchAllProducts = .ok prs)
    (h6 : env.bulkInsertPayments = .ok ()) (h7 : env.bulkInsertMemberships = .ok ())
    (h8 : env.bulkInsertProducts = .ok ()) (h9 : env.updateLastSync = .ok ()) :
    syncFull env cid =
      ⟨⟨true, ps.length, ms.length, prs.length, env.now, none⟩, true,
        some (ps.map (formatPayment cid)),
        some ((ms.filter memberHasId).map (formatMember cid)),
        some (prs.map (formatProduct cid env.now)), true⟩ := by
  simp [syncFull, h2, h3, h4, h5, h6, h7, h8, h9, insertOutcome_ok]

/-- Every run of `syncFull` either succeeds with no error recorded and the
upstream fetch performed, or fails carrying the message of one of the
environment's failed operations. -/
theorem syncFull_result_spec (env : SyncEnv) (cid : String) :
    ((syncFull env cid).result.success = true ∧ (syncFull env cid).result.error = none ∧
      (syncFull env cid).attemptedFetch = true)
    ∨ ((syncFull env cid).result.success = false ∧
        ∃ m, (syncFull env cid).result.error = some m ∧ m ∈ envMessages env) := by
  rcases h2 : env.upsertCompany with e | u
  · right
    refine ⟨by simp [syncFull, h2, syncFailure], e, by simp [syncFull, h2, syncFailure], ?_⟩
    simp [envMessages, exceptErrors, h2]
  rcases h3 : env.fetchAllPayments with e | ps
  · right
    refine ⟨by simp [syncFull, h2, h3, syncFailure], e,
      by simp [syncFull, h2, h3, syncFailure], ?_⟩
    simp [envMessages, exceptErrors, h3]
  rcases h4 : env.fetchAllMemberships with e | ms
  · right
    refine ⟨by simp [syncFull, h2, h3, h4, syncFailure], e,
      by simp [syncFull, h2, h3, h4, syncFailure], ?_⟩
    simp [envMessages, exceptErrors, h4]
  rcases h5 : env.fetchAllProducts with e | prs
  · right
    refine ⟨by simp [syncFull, h2, h3, h4, h5, syncFailure], e,
      by simp [syncFull, h2, h3, h4, h5, syncFailure], ?_⟩
    simp [envMessages, exceptErrors, h5]
  rcases h6 : insertOutcome env.bulkInsertPayments ps.length with e | u6
  · right
    refine ⟨by simp [syncFull, h2, h3, h4, h5, h6, syncFailure], e,
      by simp [syncFull, h2, h3, h4, h5, h6, syncFailure], ?_⟩
    simp [envMessages, exceptErrors, insertOutcome_error h6]
  rcases h7 : insertOutcome env.bulkInsertMemberships
      (ms.filter memberHasId).length with e | u7
  · right
    refine ⟨by simp [syncFull, h2, h3, h4, h5, h6, h7, syncFailure], e,
      by simp [syncFull, h2, h3, h4, h5, h6, h7, syncFailure], ?_⟩
    simp [envMessages, exceptErrors, insertOutcome_error h7]
  rcases h8 : insertOutcome env.bulkInsertProducts prs.length with e | u8
  · right
    refine ⟨by simp [syncFull, h2, h3, h4, h5, h6, h7, h8, syncFailure], e,
      by simp [syncFull, h2, h3, h4, h5, h6, h7, h8, syncFailure], ?_⟩
    simp [envMessages, exceptErrors, insertOutcome_error h8]
  rcases h9 : env.updateLastSync with e | u9
  · right
    refine ⟨by simp [syncFull, h2, h3, h4, h5, h6, h7, h8, h9, syncFailure], e,
      by simp [syncFull, h2, h3, h4, h5, h6, h7, h8, h9, syncFailure], ?_⟩
    simp [envMessages, exceptErrors, h9]
  · left
    refine ⟨?_, ?_, ?_⟩ <;> simp [syncFull, h2, h3, h4, h5, h6, h7, h8, h9]

theorem syncCompanyData_skip (env : SyncEnv) (cid : String) (force : Bool) (t : Int)
    (hls : env.getLastSync = .ok (some t))
    (hf : force = false) (ht : env.now - 60 * 60 * 1000 < t) :
    syncCompanyData env cid force =
      ⟨⟨true, 0, 0, 0, t, none⟩, false, none, none, none, false⟩ := by
  subst hf
  simp [syncCompanyData, hls, show env.now - 3600000 < t by omega]

theorem syncCompanyData_full (env : SyncEnv) (cid : String) (force : Bool) (ls : Option Int)
    (hls : env.getLastSync = .ok ls)
    (h : force = true ∨ ls = none ∨ ∀ t, ls = some t → t ≤ env.now - 60 * 60 * 1000) :
    syncCompanyData env cid force = syncFull env cid := by
  rcases ls with _ | t
  · simp [syncCompanyData, hls]
  · rcases h with hf | hn | hle
    · subst hf; simp [syncCompanyData, hls]
    · exact Option.noConfusion hn
    · have h2 : t ≤ env.now - 60 * 60 * 1000 := hle t rfl
      simp [syncCompanyData, hls, show ¬(env.now - 3600000 < t) by omega]

theorem syncCompanyData_full_of_not_skip (env : SyncEnv) (cid : String) (force : Bool)
    (ls : Option Int) (hls : env.getLastSync = .ok ls)
    (h : ¬(force = false ∧ ∃ t, ls = some t ∧ env.now - 60 * 60 * 1000 < t)) :
    syncCompanyData env cid force = syncFull env cid := by
  apply syncCompanyData_full env cid force ls hls
  rcases ls with _ | t
  · exact Or.inr (Or.inl rfl)
  · cases force
    · right; right
      intro t2 ht2
      have h2 : t = t2 := by injection ht2
      subst h2
      by_contra hlt
      exact h ⟨rfl, t, rfl, lt_of_not_le hlt⟩
    · exact Or.inl rfl

/-! ## C1: freshness skip -/

/-- C1: with a successful last-sync lookup, `syncCompanyData` skips the
upstream fetch — returning success with zero counts and the stored
timestamp as `syncedAt` — exactly when `force` is false and a stored
timestamp younger than one hour exists; in every other case (under a fully
successful environment) it runs the full fetch-and-upsert cycle. -/
theorem sync_skip_iff (env : SyncEnv) (cid : String) (force : Bool) (ls : Option Int)
    (hls : env.getLastSync = Except.ok ls) :
    (∀ t, ls = some t → force = false → env.now - 60 * 60 * 1000 < t →
      syncCompanyData env cid force =
        ⟨⟨true, 0, 0, 0, t, none⟩, false, none, none, none, false⟩)
    ∧ (∀ (ps : List UpstreamPayment) (ms : List UpstreamMember) (prs : List UpstreamProduct),
        (force = true ∨ ls = none ∨ ∀ t, ls = some t → t ≤ env.now - 60 * 60 * 1000) →
        env.upsertCompany = .ok () → env.fetchAllPayments = .ok ps →
        env.fetchAllMemberships = .ok ms → env.fetchAllProducts = .ok prs →
        env.bulkInsertPayments = .ok () → env.bulkInsertMemberships = .ok () →
        env.bulkInsertProducts = .ok () → env.updateLastSync = .ok () →
        syncCompanyData env cid force =
          ⟨⟨true, ps.length, ms.length, prs.length, env.now, none⟩, true,
            some (ps.map (formatPayment cid)),
            some ((ms.filter memberHasId).map (formatMember cid)),
            some (prs.map (formatProduct cid env.now)), true⟩)
    ∧ ((syncCompanyData env cid force).attemptedFetch = false ∧
        (syncCompanyData env cid force).result.success = true →
        force = false ∧ ∃ t, ls = some t ∧ env.now - 60 * 60 * 1000 < t) := by
  refine ⟨?_, ?_, ?_⟩
  · intro t ht hf hlt
    subst ht
    exact syncCompanyData_skip env cid force t hls hf hlt
  · intro ps ms prs hcase h2 h3 h4 h5 h6 h7 h8 h9
    rw [syncCompanyData_full env cid force ls hls hcase]
    exact syncFull_ok env cid ps ms prs h2 h3 h4 h5 h6 h7 h8 h9
  · intro hsk
    obtain ⟨ha, hs⟩ := hsk
    by_cases hskip : force = false ∧ ∃ t, ls = some t ∧ env.now - 60 * 60 * 1000 < t
    · exact hskip
    · exfalso
      have hfull := syncCompanyData_full_of_not_skip env cid force ls hls hskip
      rw [hfull] at ha hs
      rcases syncFull_result_spec env cid with ⟨_, _, hat⟩ | ⟨hfail, _⟩
      · exact Bool.noConfusion (ha.symm.trans hat)
      · exact Bool.noConfusion (hfail.symm.trans hs)

theorem sync_skip_iff_witness :
    syncCompanyData c1FreshEnv "biz_1" false =
      ⟨⟨true, 0, 0, 0, 7000000, none⟩, false, none, none, none, false⟩ ∧
    syncCompanyData c1FreshEnv "biz_1" true =
      ⟨⟨true, 0, 0, 0, 7200000, none⟩, true, some [], some [], some [], true⟩ := by
  have h := sync_skip_iff c1FreshEnv "biz_1" false (some 7000000) rfl
  have h' := sync_skip_iff c1FreshEnv "biz_1" true (some 7000000) rfl
  refine ⟨h.1 7000000 rfl rfl (by decide), ?_⟩
  simpa using h'.2.1 [] [] [] (Or.inl rfl) rfl rfl rfl rfl rfl rfl rfl rfl

/-! ## C7: no escaping exceptions -/

/-- C7: `syncCompanyData` is a total function into `SyncResult`-carrying
outputs; for every environment its result either reports success with no
error, or reports `success = false` carrying the message of one of the
environment's failed operations — no failure is raised to the caller. -/
theorem sync_error_capture (env : SyncEnv) (cid : String) (force : Bool) :
    ((syncCompanyData env cid force).result.success = true ∧
      (syncCompanyData env cid force).result.error = none)
    ∨ ((syncCompanyData env cid force).result.success = false ∧
        ∃ m, (syncCompanyData env cid force).result.error = some m ∧ m ∈ envMessages env) := by
  rcases hls : env.getLastSync with e | ls
  · right
    refine ⟨by simp [syncCompanyData, hls, syncFailure], e,
      by simp [syncCompanyData, hls, syncFailure], ?_⟩
    simp [envMessages, exceptErrors, hls]
  · by_cases hskip : force = false ∧ ∃ t, ls = some t ∧ env.now - 60 * 60 * 1000 < t
    · left
      obtain ⟨hf, t, ht, hlt⟩ := hskip
      rw [syncCompanyData_skip env cid force t (ht ▸ hls) hf hlt]
      exact ⟨rfl, rfl⟩
    · rw [syncCompanyData_full_of_not_skip env cid force ls hls hskip]
      rcases syncFull_result_spec env cid with ⟨h1, h2, _⟩ | ⟨h1, m, h2, h3⟩
      · exact Or.inl ⟨h1, h2⟩
      · exact Or.inr ⟨h1, m, h2, h3⟩

/-! ## C10: reported membership count versus rows written -/

/-- C10: on a successful full sync the reported `membershipsCount` is the
number of member records fetched upstream, while the rows written are only
those passing the id filter; with at least one id-less member the reported
count strictly exceeds the rows written. -/
theorem sync_memberships_count_overreport (env : SyncEnv) (cid : String) (force : Bool)
    (ls : Option Int) (ps : List UpstreamPayment) (ms : List UpstreamMember)
    (prs : List UpstreamProduct)
    (hls : env.getLastSync = .ok ls)
    (hskip : force = true ∨ ls = none ∨ ∀ t, ls = some t → t ≤ env.now - 60 * 60 * 1000)
    (h2 : env.upsertCompany = .ok ()) (h3 : env.fetchAllPayments = .ok ps)
    (h4 : env.fetchAllMemberships = .ok ms) (h5 : env.fetchAllProducts = .ok prs)
    (h6 : env.bulkInsertPayments = .ok ()) (h7 : env.bulkInsertMemberships = .ok ())
    (h8 : env.bulkInsertProducts = .ok ()) (h9 : env.updateLastSync = .ok ()) :
    (syncCompanyData env cid force).result.success = true
    ∧ (syncCompanyData env cid force).result.membershipsCount = ms.length
    ∧ (syncCompanyData env cid force).membershipsWritten =
        some ((ms.filter memberHasId).map (formatMember cid))
    ∧ ((∃ m ∈ ms, memberHasId m = false) →
        ((ms.filter memberHasId).map (formatMember cid)).length <
          (syncCompanyData env cid force).result.membershipsCount) := by
  have heq := syncCompanyData_full env cid force ls hls hskip
  rw [heq, syncFull_ok env cid ps ms prs h2 h3 h4 h5 h6 h7 h8 h9]
  refine ⟨rfl, rfl, rfl, ?_⟩
  intro hex
  obtain ⟨m, hm, hid⟩ := hex
  simp only [List.length_map]
  exact List.length_filter_lt_length_iff_exists.mpr ⟨m, hm, by simp [hid]⟩

theorem sync_memberships_count_overreport_witness :
    (syncCompanyData c10Env "biz_1" false).result.membershipsCount = 2 ∧
    (([c10GoodMember, c10BadMember].filter memberHasId).map (formatMember "biz_1")).length <
      (syncCompanyData c10Env "biz_1" false).result.membershipsCount := by
  have h := sync_memberships_count_overreport c10Env "biz_1" false none []
    [c10GoodMember, c10BadMember] [] rfl (Or.inr (Or.inl rfl)) rfl rfl rfl rfl rfl rfl rfl rfl
  exact ⟨h.2.1, h.2.2.2 ⟨c10BadMember, by decide, by decide⟩⟩

/-! ## C5: ARPU's stale denominator -/

theorem activeMemberCountNow_congr (mdb mdb2 : List MembershipRow) (cid : String)
    (h : mdb.map eraseCreatedAt = mdb2.map eraseCreatedAt) :
    activeMemberCountNow mdb cid = activeMemberCountNow mdb2 cid := by
  have key : ∀ l : List MembershipRow,
      activeMemberCountNow l cid = activeMemberCountNow (l.map eraseCreatedAt) cid := by
    intro l
    unfold activeMemberCountNow
    rw [← List.countP_eq_length_filter, ← List.countP_eq_length_filter, List.countP_map]
    rfl
  rw [key mdb, key mdb2, h]

theorem calculateARPU_eq_model (db : List PaymentRow) (mdb : List MembershipRow)
    (cid : String) (s e now : Int) :
    calculateARPU db mdb cid s e now = arpuModel db (activeMemberCountNow mdb cid) cid s e := rfl

/-- C5: `calculateARPU` never re-evaluates its member-count denominator for
the preceding period — both the current and the previous ARPU divide by the
present active-member count (`arpuModel` shares one count `c` between both
periods), so the result is unchanged under any modification of historical
membership creation dates (and of the evaluation time). -/
theorem arpu_stale_denominator (db : List PaymentRow) (mdb mdb2 : List MembershipRow)
    (cid : String) (s e now now2 : Int)
    (h : mdb.map eraseCreatedAt = mdb2.map eraseCreatedAt) :
    calculateARPU db mdb cid s e now = calculateARPU db mdb2 cid s e now2
    ∧ calculateARPU db mdb cid s e now = arpuModel db (activeMemberCountNow mdb cid) cid s e := by
  have hc := activeMemberCountNow_congr mdb mdb2 cid h
  refine ⟨?_, calculateARPU_eq_model db mdb cid s e now⟩
  rw [calculateARPU_eq_model db mdb cid s e now, calculateARPU_eq_model db mdb2 cid s e now2,
    hc]

theorem arpu_stale_denominator_witness :
    calculateARPU [c3Payment] [c5Membership] "biz_1" 0 86400000 500 =
      calculateARPU [c3Payment] [c5MembershipLater] "biz_1" 0 86400000 999 :=
  (arpu_stale_denominator [c3Payment] [c5Membership] [c5MembershipLater] "biz_1"
    0 86400000 500 999 rfl).1

/-! ## Shared lemmas about the container helpers -/

theorem mem_jsSetDedupAux (seen l : List String) (x : String) :
    x ∈ jsSetDedupAux seen l ↔ x ∈ l ∧ x ∉ seen := by
  induction l generalizing seen with
  | nil => simp [jsSetDedupAux]
  | cons a t ih =>
    by_cases ha : a ∈ seen
    · simp only [jsSetDedupAux, if_pos ha]
      rw [ih]
      constructor
      · rintro ⟨hx, hs⟩
        exact ⟨List.mem_cons_of_mem a hx, hs⟩
      · rintro ⟨hx, hs⟩
        rcases List.mem_cons.mp hx with rfl | hx2
        · exact absurd ha hs
        · exact ⟨hx2, hs⟩
    · simp only [jsSetDedupAux, if_neg ha]
      constructor
      · intro hx
        rcases List.mem_cons.mp hx with rfl | hx2
        · exact ⟨List.mem_cons_self x t, ha⟩
        · obtain ⟨h3, h4⟩ := (ih (a :: seen)).mp hx2
          exact ⟨List.mem_cons_of_mem a h3, fun hs => h4 (List.mem_cons_of_mem a hs)⟩
      · rintro ⟨hx, hs⟩
        rcases List.mem_cons.mp hx with rfl | hx2
        · exact List.mem_cons_self x _
        · by_cases hxa : x = a
          · subst hxa
            exact List.mem_cons_self x _
          · refine List.mem_cons_of_mem a ((ih (a :: seen)).mpr ⟨hx2, fun h5 => ?_⟩)
            exact (List.mem_cons.mp h5).elim hxa hs

theorem nodup_jsSetDedupAux (seen l : List String) : (jsSetDedupAux seen l).Nodup := by
  induction l generalizing seen with
  | nil => simp [jsSetDedupAux]
  | cons a t ih =>
    by_cases ha : a ∈ seen
    · simp only [jsSetDedupAux, if_pos ha]
      exact ih seen
    · simp only [jsSetDedupAux, if_neg ha]
      rw [List.nodup_cons]
      exact ⟨fun hmem => ((mem_jsSetDedupAux _ _ _).mp hmem).2 (List.mem_cons_self a seen),
        ih _⟩

theorem mem_jsSetDedup (l : List String) (x : String) : x ∈ jsSetDedup l ↔ x ∈ l := by
  simp [jsSetDedup, mem_jsSetDedupAux]

theorem nodup_jsSetDedup (l : List String) : (jsSetDedup l).Nodup := nodup_jsSetDedupAux [] l

theorem keys_jsGroupUpd {κ β : Type} [DecidableEq κ] (k : κ) (f : β → β) (d : β)
    (acc : List (κ × β)) :
    (jsGroupUpd k f d acc).map Prod.fst =
      if k ∈ acc.map Prod.fst then acc.map Prod.fst else acc.map Prod.fst ++ [k] := by
  induction acc with
  | nil => simp [jsGroupUpd]
  | cons hd tl ih =>
    obtain ⟨k2, v2⟩ := hd
    by_cases hk : k = k2
    · subst hk
      simp [jsGroupUpd]
    · simp only [jsGroupUpd, if_neg hk, List.map_cons]
      rw [ih]
      by_cases hmem : k ∈ tl.map Prod.fst
      · rw [if_pos hmem, if_pos (List.mem_cons_of_mem _ hmem)]
      · rw [if_neg hmem, if_neg (by simp [hk, hmem])]
        simp

theorem mem_keys_jsGroupUpd {κ β : Type} [DecidableEq κ] (k : κ) (f : β → β) (d : β)
    (acc : List (κ × β)) (x : κ) :
    x ∈ (jsGroupUpd k f d acc).map Prod.fst ↔ x = k ∨ x ∈ acc.map Prod.fst := by
  rw [keys_jsGroupUpd]
  by_cases hmem : k ∈ acc.map Prod.fst
  · rw [if_pos hmem]
    constructor
    · exact Or.inr
    · rintro (rfl | hx)
      exacts [hmem, hx]
  · rw [if_neg hmem]
    simp [or_comm]

theorem nodup_keys_jsGroupUpd {κ β : Type} [DecidableEq κ] (k : κ) (f : β → β) (d : β)
    (acc : List (κ × β)) (h : (acc.map Prod.fst).Nodup) :
    ((jsGroupUpd k f d acc).map Prod.fst).Nodup := by
  rw [keys_jsGroupUpd]
  by_cases hmem : k ∈ acc.map Prod.fst
  · rwa [if_pos hmem]
  · rw [if_neg hmem, List.nodup_append]
    refine ⟨h, List.nodup_singleton k, ?_⟩
    intro a ha hb
    rw [List.mem_singleton] at hb
    subst hb
    exact hmem ha

theorem mem_keys_jsGroupByAux {σ κ β : Type} [DecidableEq κ] (okey : σ → Option κ)
    (f : σ → β → β) (dflt : σ → β) (l : List σ) (acc : List (κ × β)) (x : κ) :
    x ∈ (jsGroupByAux okey f dflt l acc).map Prod.fst ↔
      x ∈ acc.map Prod.fst ∨ ∃ s ∈ l, okey s = some x := by
  induction l generalizing acc with
  | nil => simp [jsGroupByAux]
  | cons a t ih =>
    rcases hk : okey a with _ | k
    · simp only [jsGroupByAux, hk]
      rw [ih]
      constructor
      · rintro (hacc | ⟨s, hs, hos⟩)
        · exact Or.inl hacc
        · exact Or.inr ⟨s, List.mem_cons_of_mem a hs, hos⟩
      · rintro (hacc | ⟨s, hs, hos⟩)
        · exact Or.inl hacc
        · rcases List.mem_cons.mp hs with rfl | hst
          · rw [hk] at hos
            exact Option.noConfusion hos
          · exact Or.inr ⟨s, hst, hos⟩
    · simp only [jsGroupByAux, hk]
      rw [ih, mem_keys_jsGroupUpd]
      constructor
      · rintro ((rfl | hacc) | ⟨s, hs, hos⟩)
        · exact Or.inr ⟨a, List.mem_cons_self a t, hk⟩
        · exact Or.inl hacc
        · exact Or.inr ⟨s, List.mem_cons_of_mem a hs, hos⟩
      · rintro (hacc | ⟨s, hs, hos⟩)
        · exact Or.inl (Or.inr hacc)
        · rcases List.mem_cons.mp hs with rfl | hst
          · rw [hk] at hos
            injection hos with h2
            exact Or.inl (Or.inl h2.symm)
          · exact Or.inr ⟨s, hst, hos⟩

theorem nodup_keys_jsGroupByAux {σ κ β : Type} [DecidableEq κ] (okey : σ → Option κ)
    (f : σ → β → β) (dflt : σ → β) (l : List σ) (acc : List (κ × β))
    (h : (acc.map Prod.fst).Nodup) :
    ((jsGroupByAux okey f dflt l acc).map Prod.fst).Nodup := by
  induction l generalizing acc with
  | nil => simpa [jsGroupByAux] using h
  | cons a t ih =>
    rcases hk : okey a with _ | k
    · simp only [jsGroupByAux, hk]
      exact ih _ h
    · simp only [jsGroupByAux, hk]
      exact ih _ (nodup_keys_jsGroupUpd _ _ _ _ h)

theorem mem_keys_jsGroupBy {σ κ β : Type} [DecidableEq κ] (okey : σ → Option κ)
    (f : σ → β → β) (dflt : σ → β) (l : List σ) (x : κ) :
    x ∈ (jsGroupBy okey f dflt l).map Prod.fst ↔ ∃ s ∈ l, okey s = some x := by
  unfold jsGroupBy
  rw [mem_keys_jsGroupByAux]
  simp

theorem nodup_keys_jsGroupBy {σ κ β : Type} [DecidableEq κ] (okey : σ → Option κ)
    (f : σ → β → β) (dflt : σ → β) (l : List σ) :
    ((jsGroupBy okey f dflt l).map Prod.fst).Nodup :=
  nodup_keys_jsGroupByAux _ _ _ _ _ (by simp)

theorem length_le_of_nodup_subset {α : Type} [DecidableEq α] {l L : List α}
    (hn : l.Nodup) (hsub : ∀ x ∈ l, x ∈ L) : l.length ≤ L.length := by
  calc l.length = l.toFinset.card := (List.toFinset_card_of_nodup hn).symm
    _ ≤ L.toFinset.card := Finset.card_le_card (fun x hx => by
        rw [List.mem_toFinset] at hx ⊢
        exact hsub x hx)
    _ ≤ L.length := L.toFinset_card_le

theorem length_eq_of_nodup_mem_iff {α : Type} [DecidableEq α] {l L : List α}
    (hl : l.Nodup) (hL : L.Nodup) (h : ∀ x, x ∈ l ↔ x ∈ L) : l.length = L.length :=
  le_antisymm (length_le_of_nodup_subset hl fun x hx => (h x).mp hx)
    (length_le_of_nodup_subset hL fun x hx => (h x).mpr hx)

theorem orNullStr_eq_some {o : Option String} {k : String} (h : orNullStr o = some k) :
    o = some k ∧ k ≠ "" := by
  cases o with
  | none => exact Option.noConfusion h
  | some s =>
    simp only [orNullStr] at h
    by_cases hs : (s == "") = true
    · rw [if_pos hs] at h
      exact Option.noConfusion h
    · rw [if_neg hs] at h
      injection h with h2
      subst h2
      exact ⟨rfl, by simpa using hs⟩

theorem lookupLast_eq_none (pdb : List ProductRow) (pid : String)
    (h : ∀ pr ∈ pdb, pr.id ≠ pid) : lookupLast pdb pid = none := by
  have hnil : pdb.filter (fun pr => pr.id == pid) = [] :=
    List.filter_eq_nil_iff.mpr (fun pr hpr => by simp [h pr hpr])
  unfold lookupLast
  rw [hnil]
  rfl

/-! ## C9: sparse, sorted revenue time series -/

/-- C9: `getRevenueTimeSeries` returns one entry per calendar date carrying
at least one paid payment in the trailing window — dates with no payment
are omitted, not zero-filled — in strictly ascending date order; its length
is the number of distinct such dates (so with payments on exactly two
distinct dates it has exactly two entries). -/
theorem revenueTimeSeries_sparse_sorted (db : List PaymentRow) (cid : String)
    (days now : Int) :
    (∀ d : Int, d ∈ (getRevenueTimeSeries db cid days now).map (fun s => s.date) ↔
        d ∈ paidDaysInWindow db cid days now)
    ∧ List.Pairwise (fun a b : Int => a < b)
        ((getRevenueTimeSeries db cid days now).map (fun s => s.date))
    ∧ (getRevenueTimeSeries db cid days now).length =
        (paidDaysInWindow db cid days now).dedup.length := by
  have hperm : (rtsData db cid days now).Perm (rtsFiltered db cid days now) :=
    List.perm_insertionSort paidAtLE (rtsFiltered db cid days now)
  by_cases hemp : (rtsData db cid days now).isEmpty
  · have hnil : rtsData db cid days now = [] := List.isEmpty_iff.mp hemp
    have h2 := hperm.symm
    rw [hnil] at h2
    have hfnil : rtsFiltered db cid days now = [] := h2.eq_nil
    simp [getRevenueTimeSeries, hemp, paidDaysInWindow, hfnil]
  · have hR : getRevenueTimeSeries db cid days now =
        ((rtsGrouped db cid days now).map
          (fun e => TimeSeriesPoint.mk e.1 (round2 e.2))).insertionSort tsPointLE := by
      simp [getRevenueTimeSeries, hemp]
    have hkmem : ∀ x : Int, x ∈ (rtsGrouped db cid days now).map Prod.fst ↔
        x ∈ paidDaysInWindow db cid days now := by
      intro x
      unfold rtsGrouped
      rw [mem_keys_jsGroupBy]
      unfold paidDaysInWindow
      rw [List.mem_filterMap]
      constructor
      · rintro ⟨p, hp, hop⟩
        exact ⟨p, hperm.mem_iff.mp hp, hop⟩
      · rintro ⟨p, hp, hop⟩
        exact ⟨p, hperm.mem_iff.mpr hp, hop⟩
    have hknodup : ((rtsGrouped db cid days now).map Prod.fst).Nodup := by
      unfold rtsGrouped
      exact nodup_keys_jsGroupBy _ _ _ _
    have hRperm : (getRevenueTimeSeries db cid days now).Perm
        ((rtsGrouped db cid days now).map (fun e => TimeSeriesPoint.mk e.1 (round2 e.2))) := by
      rw [hR]
      exact List.perm_insertionSort _ _
    have hdates : ((getRevenueTimeSeries db cid days now).map (fun s => s.date)).Perm
        ((rtsGrouped db cid days now).map Prod.fst) := by
      have h2 := hRperm.map (fun s => s.date)
      rw [List.map_map] at h2
      exact h2
    refine ⟨?_, ?_, ?_⟩
    · intro d
      rw [hdates.mem_iff]
      exact hkmem d
    · have hsorted : List.Sorted tsPointLE (getRevenueTimeSeries db cid days now) := by
        rw [hR]
        exact List.sorted_insertionSort tsPointLE _
      have hle : List.Pairwise (fun a b : Int => a ≤ b)
          ((getRevenueTimeSeries db cid days now).map (fun s => s.date)) :=
        List.pairwise_map.mpr hsorted
      have hnd : ((getRevenueTimeSeries db cid days now).map (fun s => s.date)).Nodup :=
        hdates.nodup_iff.mpr hknodup
      exact (hle.and hnd).imp (fun h => lt_of_le_of_ne h.1 h.2)
    · have hlen : (getRevenueTimeSeries db cid days now).length =
          ((rtsGrouped db cid days now).map Prod.fst).length := by
        rw [hR, List.length_insertionSort, List.length_map, List.length_map]
      rw [hlen]
      exact length_eq_of_nodup_mem_iff hknodup (List.nodup_dedup _)
        (fun x => (hkmem x).trans List.mem_dedup.symm)

/-! ## C8: top products -/

/-- C8: `getTopProducts` returns at most `limit` entries, sorted in
descending order of revenue, drawn only from paid payments of the company
with a non-null product reference, and reports `Unknown Product` for a
product id absent from the products table. -/
theorem topProducts_spec (db : List PaymentRow) (pdb : List ProductRow) (cid : String)
    (limit : Nat) :
    (getTopProducts db pdb cid limit).length ≤ limit
    ∧ List.Pairwise (fun a b : ProductMetric => b.revenue ≤ a.revenue)
        (getTopProducts db pdb cid limit)
    ∧ (∀ x ∈ getTopProducts db pdb cid limit,
        ∃ p ∈ db, p.company_id = cid ∧ p.status = "paid" ∧ p.product_id = some x.productId)
    ∧ (∀ x ∈ getTopProducts db pdb cid limit,
        (∀ pr ∈ pdb, pr.id ≠ x.productId) → x.productName = "Unknown Product") := by
  by_cases hemp : (topPayments db cid).isEmpty
  · simp [getTopProducts, hemp]
  · have hG : getTopProducts db pdb cid limit =
        ((topEntries db pdb cid).insertionSort productRevGE).take limit := by
      simp [getTopProducts, hemp]
    have hmem_entries : ∀ x ∈ getTopProducts db pdb cid limit, x ∈ topEntries db pdb cid := by
      intro x hx
      rw [hG] at hx
      exact (List.mem_insertionSort productRevGE).mp ((List.take_sublist _ _).subset hx)
    refine ⟨?_, ?_, ?_, ?_⟩
    · rw [hG]
      exact List.length_take_le _ _
    · rw [hG]
      exact List.Pairwise.sublist (List.take_sublist _ _)
        (List.sorted_insertionSort productRevGE _)
    · intro x hx
      obtain ⟨e, he, hxe⟩ := List.mem_map.mp (hmem_entries x hx)
      subst hxe
      have hkey : e.1 ∈ (topGrouped db cid).map Prod.fst := List.mem_map_of_mem Prod.fst he
      unfold topGrouped at hkey
      rw [mem_keys_jsGroupBy] at hkey
      obtain ⟨p, hp, hop⟩ := hkey
      unfold topPayments at hp
      obtain ⟨hpdb, hcond⟩ := List.mem_filter.mp hp
      simp only [Bool.and_eq_true, beq_iff_eq] at hcond
      obtain ⟨⟨hc1, hc2⟩, _⟩ := hcond
      obtain ⟨hps, _⟩ := orNullStr_eq_some hop
      exact ⟨p, hpdb, hc1, hc2, hps⟩
    · intro x hx hnone
      obtain ⟨e, he, hxe⟩ := List.mem_map.mp (hmem_entries x hx)
      subst hxe
      show productDisplayName pdb e.1 = "Unknown Product"
      unfold productDisplayName
      rw [lookupLast_eq_none pdb e.1 hnone]

/-! ## C4: customer segmentation shape and bounds -/

/-- C4 counterexample: one paying customer whose single membership is both
`active` and `at_risk` makes the four segment counts sum to 2 while there
is only 1 unique paying customer — the counts are not bounded by the
customer total in sum. -/
theorem segmentation_sum_cex :
    ¬ (((getCustomerSegmentation [c4Payment] [c4Membership] "biz_1" (100 * 86400000)).map
        (fun s => s.count)).sum ≤ uniquePayingCustomerCount [c4Payment] "biz_1") := by
  decide

/-- C4 amended: `getCustomerSegmentation` always returns exactly four
entries in the order `new`, `active`, `at_risk`, `churned`; with no paid
payments all four are present with count 0 and percentage 0; and each
individual segment count (not their sum — the filters may overlap) is at
most the number of unique paying customers. -/
theorem segmentation_shape_bounds (db : List PaymentRow) (mdb : List MembershipRow)
    (cid : String) (now : Int) :
    ((getCustomerSegmentation db mdb cid now).map (fun s => s.segment) =
      [Segment.new, Segment.active, Segment.atRisk, Segment.churned])
    ∧ ((segPayments db cid).isEmpty = true →
        getCustomerSegmentation db mdb cid now = zeroSegments)
    ∧ (∀ s ∈ getCustomerSegmentation db mdb cid now,
        s.count ≤ uniquePayingCustomerCount db cid) := by
  by_cases h1 : (segPayments db cid).isEmpty
  · refine ⟨?_, fun _ => ?_, ?_⟩
    · simp [getCustomerSegmentation, h1, zeroSegments]
    · simp [getCustomerSegmentation, h1]
    · intro s hs
      rw [show getCustomerSegmentation db mdb cid now = zeroSegments by
        simp [getCustomerSegmentation, h1]] at hs
      simp only [zeroSegments, List.mem_cons, List.not_mem_nil, or_false] at hs
      rcases hs with rfl | rfl | rfl | rfl <;> exact Nat.zero_le _
  · by_cases h2 : (segCustomerMemberships mdb cid (uniquePayingCustomerIds db cid)).isEmpty
    · refine ⟨?_, fun hc => absurd hc h1, ?_⟩
      · simp [getCustomerSegmentation, h1, h2, zeroSegments]
      · intro s hs
        rw [show getCustomerSegmentation db mdb cid now = zeroSegments by
          simp [getCustomerSegmentation, h1, h2]] at hs
        simp only [zeroSegments, List.mem_cons, List.not_mem_nil, or_false] at hs
        rcases hs with rfl | rfl | rfl | rfl <;> exact Nat.zero_le _
    · have hkeysN : ((collectByUser (segCustomerMemberships mdb cid
          (uniquePayingCustomerIds db cid))).map Prod.fst).Nodup := by
        unfold collectByUser
        exact nodup_keys_jsGroupBy _ _ _ _
      have hsub : ∀ x ∈ (collectByUser (segCustomerMemberships mdb cid
          (uniquePayingCustomerIds db cid))).map Prod.fst,
          x ∈ uniquePayingCustomerIds db cid := by
        intro x hx
        unfold collectByUser at hx
        rw [mem_keys_jsGroupBy] at hx
        obtain ⟨m, hm, hom⟩ := hx
        unfold segCustomerMemberships at hm
        obtain ⟨_, hcond⟩ := List.mem_filter.mp hm
        simp only [Bool.and_eq_true] at hcond
        obtain ⟨_, hc2⟩ := hcond
        obtain ⟨hu, _⟩ := orNullStr_eq_some hom
        rw [hu] at hc2
        exact List.elem_iff.mp hc2
      have hb : (segUniqueCustomers
          (segCustomerMemberships mdb cid (uniquePayingCustomerIds db cid))).length ≤
          uniquePayingCustomerCount db cid := by
        unfold segUniqueCustomers uniquePayingCustomerCount
        rw [List.length_map]
        calc (collectByUser (segCustomerMemberships mdb cid
              (uniquePayingCustomerIds db cid))).length
            = ((collectByUser (segCustomerMemberships mdb cid
                (uniquePayingCustomerIds db cid))).map Prod.fst).length :=
              (List.length_map _ _).symm
          _ ≤ (uniquePayingCustomerIds db cid).length :=
              length_le_of_nodup_subset hkeysN hsub
      refine ⟨?_, fun hc => absurd hc h1, ?_⟩
      · simp [getCustomerSegmentation, h1, h2]
      · intro s hs
        simp only [getCustomerSegmentation, if_neg h1, if_neg h2] at hs
        simp only [List.mem_cons, List.not_mem_nil, or_false] at hs
        rcases hs with rfl | rfl | rfl | rfl <;>
          exact le_trans (List.length_filter_le _ _) hb

end WhopAnalytics
